import Mathlib

/-!
Verification of `ecore2atl.py`, a script that converts an ecore (XML)
metamodel into a file of dummy ATL copy rules.

The embedding mirrors the source faithfully:
- XML documents are a tree of nodes with a node type, a tag name, an
  attribute map (association list; XML forbids duplicate attribute names)
  and an ordered child list, as exposed by `xml.dom.minidom`.
- Attribute lookup `node.attributes["k"].value` raises `KeyError` when the
  attribute is absent; we model exceptions with `Except Err`.
- `node.attributes.get("k", None)` is total and modeled by `getAttr`.
  A minidom `Attr` object is always truthy, so the source line
  `if abstract and abstract.value == "true"` tests presence and exact value.
- Minidom nodes are always truthy, so the source guard `if not child`
  never fires and is omitted.
- The side effects of `main` (opening the output file, each `out.write`,
  the final `print`, reading the input file) are recorded as an explicit
  effect trace.
-/

inductive NodeType where
  | element
  | text
  | comment
  | other
deriving DecidableEq, Repr

/-- An XML DOM node as exposed by minidom: node type, tag name,
attributes, ordered children. -/
inductive XNode where
  | mk (nodeType : NodeType) (tagName : String)
       (attrs : List (String × String)) (children : List XNode)

def XNode.nodeType : XNode → NodeType
  | .mk t _ _ _ => t

def XNode.tagName : XNode → String
  | .mk _ g _ _ => g

def XNode.attrs : XNode → List (String × String)
  | .mk _ _ a _ => a

def XNode.children : XNode → List XNode
  | .mk _ _ _ c => c

/-- Total attribute lookup, `node.attributes.get(name, None)`. -/
def getAttr (n : XNode) (name : String) : Option String :=
  (n.attrs.find? (fun p => p.1 = name)).map (fun p => p.2)

/-- A parsed document; `documentElement` is the root element. -/
structure Doc where
  documentElement : XNode

/-- Python exceptions raised by the script: `KeyError` from a missing
required attribute (the SchemaError of the spec). -/
inductive Err where
  | keyError (key : String)
deriving DecidableEq, Repr

/-- The indentation unit: `INDENT = " " * 4`. -/
def INDENT : String := "    "

/-- An atl rule: a name, a namespace and the ordered attribute list
accumulated by `add_attr`. -/
structure Rule where
  name : String
  ns : String
  attrs : List String
deriving DecidableEq, Repr

/-- The attribute-mapping line `"%s%s <- c_in.%s" % (INDENT * 3, attr, attr)`
built by the loop in `Rule.__str__`. -/
def attrLine (attr : String) : String :=
  INDENT ++ INDENT ++ INDENT ++ attr ++ " <- c_in." ++ attr

/-- Rendering of a rule as atl text, line by line, per `Rule.__str__`. -/
def Rule.str (r : Rule) : String :=
  let rtype := r.ns ++ "!" ++ r.name
  let firstLines : List String := [
    "rule " ++ r.name ++ "Rule \x7b",
    INDENT ++ "from",
    INDENT ++ INDENT ++ "c_in: " ++ rtype,
    INDENT ++ "to",
    INDENT ++ INDENT ++ "c_out: " ++ rtype ++ " ("
  ]
  let lines := firstLines ++
    [String.intercalate ",\n" (r.attrs.map attrLine),
     INDENT ++ INDENT ++ ")", "\x7d"]
  String.intercalate "\n" lines

/-- The loop body of `get_rule` over `classifier.childNodes`: collect the
`name` attribute of each `eStructuralFeatures` element child, in order;
a missing `name` raises `KeyError`. -/
def featureAttrs : List XNode → Except Err (List String)
  | [] => .ok []
  | child :: rest =>
    if child.nodeType ≠ NodeType.element then
      featureAttrs rest
    else if child.tagName = "eStructuralFeatures" then
      match getAttr child "name" with
      | none => .error (.keyError "name")
      | some attrName => (featureAttrs rest).map (fun l => attrName :: l)
    else
      featureAttrs rest

/-- Embedding of `get_rule(classifier, ns_prefix)`: build a `Rule` from a
classifier node; returns `None` when the rule would have no attributes. -/
def get_rule (classifier : XNode) (ns : String) : Except Err (Option Rule) :=
  match getAttr classifier "name" with
  | none => .error (.keyError "name")
  | some name =>
    match featureAttrs classifier.children with
    | .error e => .error e
    | .ok attrs =>
      if attrs = [] then .ok none else .ok (some ⟨name, ns, attrs⟩)

/-- The loop body of `parse_rules` over `doc.documentElement.childNodes`:
the list of yielded `Rule | None` slots, or the exception raised.
Note the source reads `child.attributes["xsi:type"]` before checking the
tag, so a child element without that attribute raises `KeyError`. -/
def parseRulesAux : List XNode → String → Except Err (List (Option Rule))
  | [], _ => .ok []
  | child :: rest, ns =>
    if child.nodeType ≠ NodeType.element then
      parseRulesAux rest ns
    else
      match getAttr child "xsi:type" with
      | none => .error (.keyError "xsi:type")
      | some xsiType =>
        if child.tagName ≠ "eClassifiers" ∨ xsiType ≠ "ecore:EClass" then
          parseRulesAux rest ns
        else if getAttr child "abstract" = some "true" then
          parseRulesAux rest ns
        else
          match get_rule child ns with
          | .error e => .error e
          | .ok r => (parseRulesAux rest ns).map (fun l => r :: l)

/-- Embedding of `parse_rules(doc, ns_prefix)`: the generator, fully
evaluated. -/
def parse_rules (doc : Doc) (ns : String) : Except Err (List (Option Rule)) :=
  parseRulesAux doc.documentElement.children ns

/-- A side effect performed by the script. -/
inductive Effect where
  | readInput (filename : String)
  | openOutput (filename : String)
  | write (s : String)
  | print (s : String)
deriving DecidableEq, Repr

/-- The write loop of `main`: for each document child, in order, write
`"\n%s\n" % str(rule)` for every non-`None` extracted rule and count it.
Mirrors the lazy generator: an exception surfaces only when the loop
reaches the offending child, after earlier writes happened. -/
def writeRules : List XNode → String → List Effect × Except Err Nat
  | [], _ => ([], .ok 0)
  | child :: rest, ns =>
    if child.nodeType ≠ NodeType.element then
      writeRules rest ns
    else
      match getAttr child "xsi:type" with
      | none => ([], .error (.keyError "xsi:type"))
      | some xsiType =>
        if child.tagName ≠ "eClassifiers" ∨ xsiType ≠ "ecore:EClass" then
          writeRules rest ns
        else if getAttr child "abstract" = some "true" then
          writeRules rest ns
        else
          match get_rule child ns with
          | .error e => ([], .error e)
          | .ok none => writeRules rest ns
          | .ok (some r) =>
            let (effs, res) := writeRules rest ns
            (Effect.write ("\n" ++ r.str ++ "\n") :: effs,
             res.map (fun c => c + 1))

/-- The two header writes and the output-file open performed by `main`
before the rule loop. -/
def mainPre (modelName ns : String) : List Effect :=
  [Effect.openOutput (modelName ++ ".atl"),
   Effect.write ("module " ++ modelName ++ ";\n"),
   Effect.write ("create OUT: " ++ ns ++ " from IN: " ++ ns ++ ";\n")]

/-- Embedding of `main(ecore_file, model_name)` on an already-parsed
document: the
effect trace on the output file and stdout, and the return value
(`0` on success) or the exception raised. The `nsPrefix` lookup happens
before the output file is opened. -/
def mainTrace (doc : Doc) (modelName : String) : List Effect × Except Err Nat :=
  match getAttr doc.documentElement "nsPrefix" with
  | none => ([], .error (.keyError "nsPrefix"))
  | some ns =>
    let (effs, res) := writeRules doc.documentElement.children ns
    match res with
    | .error e => (mainPre modelName ns ++ effs, .error e)
    | .ok count =>
      (mainPre modelName ns ++ effs ++
        [Effect.print ("Extracted " ++ toString count ++ " rules.")],
       .ok 0)

/-- The module docstring, printed as usage text on a wrong argument
count. -/
def USAGE : String :=
  "ecore2atl.py - Convert ecore files into atl.\n" ++
  "Author: Kimmo Puputti (kpuputti at gmail)\n\n" ++
  "Usage: python ecore2atl.py path/to/file.ecore model_name\n\n" ++
  "All the ecore:EClass elements are parsed into separate rules and saved\n" ++
  "into a file $\x7bmodel_name\x7d.atl. The resulting atl file is just a\n" ++
  "collection for dummy rules that copy all the attributes of the input\n" ++
  "models into the output models.\n\n" ++
  "The output can then be extended to provide more interesting rules\n" ++
  "between the input and output models. This way the refining-mode of atl\n" ++
  "can be avoided (as that was the reason for developing this script in\n" ++
  "the first place).\n\n" ++
  "Note that the output is not a one-to-one mapping of the input. The\n" ++
  "output is intended to be used as a base for extending the rules by\n" ++
  "hand.\n"

/-- The `__main__` block: with exactly two arguments run `main` and exit
with its return value (or die on its exception); otherwise write the
docstring to stderr and exit with status 2, performing no file I/O.
`files` maps a filename to its parsed document. Result: text written to
stderr, effect trace, and exit status (or uncaught exception). -/
def cli (files : String → Doc) (args : List String) :
    Option String × List Effect × Except Err Nat :=
  match args with
  | [ecoreFile, modelName] =>
    let (effs, res) := mainTrace (files ecoreFile) modelName
    (none, Effect.readInput ecoreFile :: effs, res)
  | _ => (some USAGE, [], .ok 2)

/-! Concrete documents used by scenarios and witnesses. -/

/-- Classifier `Foo`: not abstract, features `a` then `b`. -/
def fooNode : XNode :=
  .mk .element "eClassifiers"
    [("xsi:type", "ecore:EClass"), ("name", "Foo")]
    [.mk .element "eStructuralFeatures" [("name", "a")] [],
     .mk .element "eStructuralFeatures" [("name", "b")] []]

/-- Classifier `Bar`: abstract, feature `c`. -/
def barNode : XNode :=
  .mk .element "eClassifiers"
    [("xsi:type", "ecore:EClass"), ("name", "Bar"), ("abstract", "true")]
    [.mk .element "eStructuralFeatures" [("name", "c")] []]

/-- Classifier `Baz`: not abstract, no features. -/
def bazNode : XNode :=
  .mk .element "eClassifiers"
    [("xsi:type", "ecore:EClass"), ("name", "Baz")] []

/-- The scenario document: root with `nsPrefix = "pn"` and children
`Foo`, `Bar`, `Baz`. -/
def scenarioDoc : Doc :=
  ⟨.mk .element "ecore:EPackage" [("nsPrefix", "pn")]
    [fooNode, barNode, bazNode]⟩

/-- C1: with root namespace prefix `pn` and classifiers `Foo` (features
`a`, `b`), `Bar` (abstract, feature `c`), `Baz` (no features), running
with module name `M` opens `M.atl`, writes the two header lines, writes
exactly one rule block `FooRule` whose attribute mappings are
`a <- c_in.a` then `b <- c_in.b`, reports a count of 1, and returns 0. -/
theorem c1_scenario :
    mainTrace scenarioDoc "M" =
      ([Effect.openOutput "M.atl",
        Effect.write "module M;\n",
        Effect.write "create OUT: pn from IN: pn;\n",
        Effect.write ("\nrule FooRule \x7b\n    from\n        c_in: pn!Foo\n" ++
          "    to\n        c_out: pn!Foo (\n            a <- c_in.a,\n" ++
          "            b <- c_in.b\n        )\n\x7d\n"),
        Effect.print "Extracted 1 rules."],
       .ok 0) := by
  rfl

/-! Helper definitions and lemmas about the extractor. -/

/-- A child node that the `get_rule` loop collects: an element tagged
`eStructuralFeatures`. -/
def isFeatureNode (ch : XNode) : Bool :=
  ch.nodeType == NodeType.element && ch.tagName == "eStructuralFeatures"

/-- The structural-feature element children of a classifier, in
declaration order. -/
def featureChildren (children : List XNode) : List XNode :=
  children.filter isFeatureNode

lemma featureAttrs_of_no_features (children : List XNode)
    (h : featureChildren children = []) : featureAttrs children = .ok [] := by
  induction children with
  | nil => rfl
  | cons c rest ih =>
    by_cases hel : c.nodeType = NodeType.element
    · by_cases htag : c.tagName = "eStructuralFeatures"
      · exfalso
        have : isFeatureNode c = true := by
          simp [isFeatureNode, hel, htag]
        simp [featureChildren, List.filter_cons, this] at h
      · have hnf : isFeatureNode c = false := by
          simp [isFeatureNode, htag]
        simp [featureChildren, List.filter_cons, hnf] at h
        simp [featureAttrs, hel, htag]
        exact ih (by simpa [featureChildren] using h)
    · have hnf : isFeatureNode c = false := by
        simp [isFeatureNode, hel]
      simp [featureChildren, List.filter_cons, hnf] at h
      simp [featureAttrs, hel]
      exact ih (by simpa [featureChildren] using h)

lemma featureAttrs_forall₂ (children : List XNode) (l : List String)
    (h : featureAttrs children = .ok l) :
    List.Forall₂ (fun a ch => getAttr ch "name" = some a) l
      (featureChildren children) := by
  induction children generalizing l with
  | nil =>
    simp [featureAttrs] at h
    subst h
    simp [featureChildren]
  | cons c rest ih =>
    by_cases hel : c.nodeType = NodeType.element
    · by_cases htag : c.tagName = "eStructuralFeatures"
      · have hf : isFeatureNode c = true := by
          simp [isFeatureNode, hel, htag]
        simp [featureAttrs, hel, htag] at h
        cases hn : getAttr c "name" with
        | none => simp [hn] at h
        | some nm =>
          simp [hn] at h
          cases hr : featureAttrs rest with
          | error e => simp [hr, Except.map] at h
          | ok l2 =>
            simp [hr, Except.map] at h
            subst h
            rw [show featureChildren (c :: rest) = c :: featureChildren rest
              from by simp [featureChildren, List.filter_cons, hf]]
            exact List.Forall₂.cons hn (ih l2 hr)
      · have hnf : isFeatureNode c = false := by
          simp [isFeatureNode, htag]
        simp [featureAttrs, hel, htag] at h
        simp [featureChildren, List.filter_cons, hnf]
        have := ih l h
        simpa [featureChildren] using this
    · have hnf : isFeatureNode c = false := by
        simp [isFeatureNode, hel]
      simp [featureAttrs, hel] at h
      simp [featureChildren, List.filter_cons, hnf]
      have := ih l h
      simpa [featureChildren] using this

lemma get_rule_some_attrs_ne_nil (c : XNode) (ns : String) (r : Rule)
    (h : get_rule c ns = .ok (some r)) : r.attrs ≠ [] := by
  unfold get_rule at h
  cases hn : getAttr c "name" with
  | none => simp [hn] at h
  | some nm =>
    simp [hn] at h
    cases hf : featureAttrs c.children with
    | error e => simp [hf] at h
    | ok attrs =>
      simp [hf] at h
      by_cases ha : attrs = []
      · simp [ha] at h
      · simp [ha] at h
        rw [← h]
        exact ha

/-- C2 counterexample: a root child element whose tag is not the
classifier tag and which lacks the `xsi:type` attribute makes extraction
raise a `KeyError` instead of being skipped. -/
theorem c2_counterexample :
    parse_rules ⟨.mk .element "root" [] [.mk .element "foo" [] []]⟩ "pn" =
      .error (.keyError "xsi:type") := rfl

/-- C2 amended: a child element that carries the discriminator attribute
and has the wrong tag or a non-`ecore:EClass` discriminator value is
skipped, emits no slot and raises no error; a child element lacking the
discriminator attribute altogether instead raises a `KeyError`. -/
theorem c2_amended (c bad : XNode) (rest restB : List XNode) (ns nsB t : String)
    (h1 : c.nodeType = NodeType.element)
    (h2 : getAttr c "xsi:type" = some t)
    (h3 : c.tagName ≠ "eClassifiers" ∨ t ≠ "ecore:EClass")
    (h4 : bad.nodeType = NodeType.element)
    (h5 : getAttr bad "xsi:type" = none) :
    parseRulesAux (c :: rest) ns = parseRulesAux rest ns ∧
    parseRulesAux (bad :: restB) nsB = .error (.keyError "xsi:type") := by
  constructor
  · simp only [parseRulesAux, h1, h2]
    simp only [ne_eq, not_true_eq_false, if_false]
    rw [if_pos h3]
  · simp only [parseRulesAux, h4, h5]
    simp

/-- C2 amended witness at a concrete input: an `eClassifiers` element of
type `ecore:EDataType` is skipped; an element without `xsi:type`
raises. -/
theorem c2_amended_witness :
    parseRulesAux [XNode.mk .element "eClassifiers"
        [("xsi:type", "ecore:EDataType")] []] "p" = parseRulesAux [] "p" ∧
    parseRulesAux [XNode.mk .element "foo" [] []] "p" =
      .error (.keyError "xsi:type") :=
  c2_amended _ _ [] [] "p" "p" "ecore:EDataType" rfl rfl
    (Or.inr (by decide)) rfl rfl

/-- The rule extracted from the `Foo` classifier of the scenario. -/
def fooRule : Rule := ⟨"Foo", "pn", ["a", "b"]⟩

/-- C5: a classifier (here with its `name` attribute present and zero
qualifying structural-feature children) yields `None` — no error and no
rule; and any materialized rule has a non-empty attribute sequence. -/
theorem c5_empty_is_none (c c2 : XNode) (ns ns2 nm : String) (r : Rule)
    (h1 : getAttr c "name" = some nm)
    (h2 : featureChildren c.children = [])
    (h3 : get_rule c2 ns2 = .ok (some r)) :
    get_rule c ns = .ok none ∧ r.attrs ≠ [] := by
  constructor
  · unfold get_rule
    rw [h1, featureAttrs_of_no_features c.children h2]
    simp
  · exact get_rule_some_attrs_ne_nil c2 ns2 r h3

/-- C5 witness: `Baz` (no features) yields `None`; the rule obtained from
`Foo` has non-empty attributes. -/
theorem c5_witness :
    get_rule bazNode "pn" = .ok none ∧ fooRule.attrs ≠ [] :=
  c5_empty_is_none bazNode fooNode "pn" "pn" "Baz" fooRule rfl rfl rfl

/-- C6: a qualifying classifier whose `abstract` attribute is present
with value `true` is skipped by `parse_rules`: no slot, hence no rule
block, regardless of its children. -/
theorem c6_abstract_skipped (c : XNode) (rest : List XNode) (ns : String)
    (h1 : c.nodeType = NodeType.element)
    (h2 : c.tagName = "eClassifiers")
    (h3 : getAttr c "xsi:type" = some "ecore:EClass")
    (h4 : getAttr c "abstract" = some "true") :
    parseRulesAux (c :: rest) ns = parseRulesAux rest ns := by
  simp [parseRulesAux, h1, h2, h3, h4]

/-- C6 witness: the abstract classifier `Bar` (which has a feature) is
skipped. -/
theorem c6_witness :
    parseRulesAux [barNode] "pn" = parseRulesAux [] "pn" :=
  c6_abstract_skipped barNode [] "pn" rfl rfl rfl rfl

/-- C7: the attribute sequence of a generated rule corresponds element
for element, in order, to the `eStructuralFeatures`
children in declaration order (duplicates preserved, no sorting). -/
theorem c7_attr_order (c : XNode) (ns : String) (r : Rule)
    (h : get_rule c ns = .ok (some r)) :
    List.Forall₂ (fun a ch => getAttr ch "name" = some a) r.attrs
      (featureChildren c.children) := by
  unfold get_rule at h
  cases hn : getAttr c "name" with
  | none => simp [hn] at h
  | some nm =>
    simp [hn] at h
    cases hf : featureAttrs c.children with
    | error e => simp [hf] at h
    | ok attrs =>
      simp [hf] at h
      by_cases ha : attrs = []
      · simp [ha] at h
      · simp [ha] at h
        rw [← h]
        exact featureAttrs_forall₂ c.children attrs hf

/-- C7 witness: the `Foo` rule attributes `["a", "b"]` line up with its two
feature children. -/
theorem c7_witness :
    List.Forall₂ (fun a ch => getAttr ch "name" = some a) fooRule.attrs
      (featureChildren fooNode.children) :=
  c7_attr_order fooNode "pn" fooRule rfl

/-- C10: a qualifying classifier whose `abstract` attribute has any value
other than the exact string `true` is not skipped: its slot is emitted,
so with at least one feature a rule block is generated. -/
theorem c10_abstract_exact_match (c : XNode) (rest : List XNode)
    (ns v : String) (r : Rule) (slots : List (Option Rule))
    (h1 : c.nodeType = NodeType.element)
    (h2 : c.tagName = "eClassifiers")
    (h3 : getAttr c "xsi:type" = some "ecore:EClass")
    (h4 : getAttr c "abstract" = some v)
    (h5 : v ≠ "true")
    (h6 : get_rule c ns = .ok (some r))
    (h7 : parseRulesAux rest ns = .ok slots) :
    parseRulesAux (c :: rest) ns = .ok (some r :: slots) := by
  simp [parseRulesAux, h1, h2, h3, h4, h5, h6, h7, Except.map]

/-- C10 witness: a classifier with `abstract="True"` and one feature
still produces a rule. -/
theorem c10_witness :
    parseRulesAux [XNode.mk .element "eClassifiers"
        [("xsi:type", "ecore:EClass"), ("name", "Qux"), ("abstract", "True")]
        [.mk .element "eStructuralFeatures" [("name", "x")] []]] "p" =
      .ok [some ⟨"Qux", "p", ["x"]⟩] :=
  c10_abstract_exact_match _ [] "p" "True" ⟨"Qux", "p", ["x"]⟩ []
    rfl rfl rfl rfl (by decide) rfl rfl

/-! Step lemmas relating one loop iteration of `parseRulesAux` and
`writeRules` to the rest of the child list. -/

lemma pr_cons_not_element (c : XNode) (rest : List XNode) (ns : String)
    (h : ¬c.nodeType = NodeType.element) :
    parseRulesAux (c :: rest) ns = parseRulesAux rest ns := by
  simp only [parseRulesAux]
  rw [if_pos h]

lemma wr_cons_not_element (c : XNode) (rest : List XNode) (ns : String)
    (h : ¬c.nodeType = NodeType.element) :
    writeRules (c :: rest) ns = writeRules rest ns := by
  simp only [writeRules]
  rw [if_pos h]

lemma pr_cons_no_xsi (c : XNode) (rest : List XNode) (ns : String)
    (h1 : c.nodeType = NodeType.element)
    (h2 : getAttr c "xsi:type" = none) :
    parseRulesAux (c :: rest) ns = .error (.keyError "xsi:type") := by
  simp only [parseRulesAux, h2]
  rw [if_neg (by simp [h1])]

lemma wr_cons_no_xsi (c : XNode) (rest : List XNode) (ns : String)
    (h1 : c.nodeType = NodeType.element)
    (h2 : getAttr c "xsi:type" = none) :
    writeRules (c :: rest) ns = ([], .error (.keyError "xsi:type")) := by
  simp only [writeRules, h2]
  rw [if_neg (by simp [h1])]

lemma pr_cons_skip (c : XNode) (rest : List XNode) (ns t : String)
    (h1 : c.nodeType = NodeType.element)
    (h2 : getAttr c "xsi:type" = some t)
    (h3 : c.tagName ≠ "eClassifiers" ∨ t ≠ "ecore:EClass") :
    parseRulesAux (c :: rest) ns = parseRulesAux rest ns := by
  simp only [parseRulesAux, h2]
  rw [if_neg (by simp [h1]), if_pos h3]

lemma wr_cons_skip (c : XNode) (rest : List XNode) (ns t : String)
    (h1 : c.nodeType = NodeType.element)
    (h2 : getAttr c "xsi:type" = some t)
    (h3 : c.tagName ≠ "eClassifiers" ∨ t ≠ "ecore:EClass") :
    writeRules (c :: rest) ns = writeRules rest ns := by
  simp only [writeRules, h2]
  rw [if_neg (by simp [h1]), if_pos h3]

lemma pr_cons_abstract (c : XNode) (rest : List XNode) (ns t : String)
    (h1 : c.nodeType = NodeType.element)
    (h2 : getAttr c "xsi:type" = some t)
    (h3 : ¬(c.tagName ≠ "eClassifiers" ∨ t ≠ "ecore:EClass"))
    (h4 : getAttr c "abstract" = some "true") :
    parseRulesAux (c :: rest) ns = parseRulesAux rest ns := by
  simp only [parseRulesAux, h2]
  rw [if_neg (by simp [h1]), if_neg h3, if_pos h4]

lemma wr_cons_abstract (c : XNode) (rest : List XNode) (ns t : String)
    (h1 : c.nodeType = NodeType.element)
    (h2 : getAttr c "xsi:type" = some t)
    (h3 : ¬(c.tagName ≠ "eClassifiers" ∨ t ≠ "ecore:EClass"))
    (h4 : getAttr c "abstract" = some "true") :
    writeRules (c :: rest) ns = writeRules rest ns := by
  simp only [writeRules, h2]
  rw [if_neg (by simp [h1]), if_neg h3, if_pos h4]

lemma pr_cons_rule (c : XNode) (rest : List XNode) (ns t : String)
    (h1 : c.nodeType = NodeType.element)
    (h2 : getAttr c "xsi:type" = some t)
    (h3 : ¬(c.tagName ≠ "eClassifiers" ∨ t ≠ "ecore:EClass"))
    (h4 : ¬getAttr c "abstract" = some "true") :
    parseRulesAux (c :: rest) ns =
      match get_rule c ns with
      | .error e => .error e
      | .ok r => (parseRulesAux rest ns).map (fun l => r :: l) := by
  simp only [parseRulesAux, h2]
  rw [if_neg (by simp [h1]), if_neg h3, if_neg h4]

lemma wr_cons_rule (c : XNode) (rest : List XNode) (ns t : String)
    (h1 : c.nodeType = NodeType.element)
    (h2 : getAttr c "xsi:type" = some t)
    (h3 : ¬(c.tagName ≠ "eClassifiers" ∨ t ≠ "ecore:EClass"))
    (h4 : ¬getAttr c "abstract" = some "true") :
    writeRules (c :: rest) ns =
      match get_rule c ns with
      | .error e => ([], .error e)
      | .ok none => writeRules rest ns
      | .ok (some r) =>
        let (effs, res) := writeRules rest ns
        (Effect.write ("\n" ++ r.str ++ "\n") :: effs,
         res.map (fun c => c + 1)) := by
  simp only [writeRules, h2]
  rw [if_neg (by simp [h1]), if_neg h3, if_neg h4]

/-- On a successful extraction, the write loop of `main` writes exactly one
block `"\n%s\n"` per non-`None` slot, in order, and its count is the
number of those slots. -/
lemma writeRules_ok (children : List XNode) (ns : String) :
    ∀ slots, parseRulesAux children ns = .ok slots →
    writeRules children ns =
      ((slots.filterMap id).map
        (fun r => Effect.write ("\n" ++ r.str ++ "\n")),
       .ok (slots.filterMap id).length) := by
  induction children with
  | nil =>
    intro slots h
    simp [parseRulesAux] at h
    subst h
    simp [writeRules]
  | cons c rest ih =>
    intro slots h
    by_cases hel : c.nodeType = NodeType.element
    · cases hx : getAttr c "xsi:type" with
      | none =>
        rw [pr_cons_no_xsi c rest ns hel hx] at h
        simp at h
      | some t =>
        by_cases hskip : c.tagName ≠ "eClassifiers" ∨ t ≠ "ecore:EClass"
        · rw [pr_cons_skip c rest ns t hel hx hskip] at h
          rw [wr_cons_skip c rest ns t hel hx hskip]
          exact ih slots h
        · by_cases hab : getAttr c "abstract" = some "true"
          · rw [pr_cons_abstract c rest ns t hel hx hskip hab] at h
            rw [wr_cons_abstract c rest ns t hel hx hskip hab]
            exact ih slots h
          · rw [pr_cons_rule c rest ns t hel hx hskip hab] at h
            rw [wr_cons_rule c rest ns t hel hx hskip hab]
            cases hg : get_rule c ns with
            | error e =>
              rw [hg] at h
              simp at h
            | ok ropt =>
              rw [hg] at h
              cases hp : parseRulesAux rest ns with
              | error e =>
                rw [hp] at h
                simp [Except.map] at h
              | ok slots2 =>
                rw [hp] at h
                simp [Except.map] at h
                subst h
                have hr := ih slots2 hp
                cases ropt with
                | none =>
                  simpa [List.filterMap_cons] using hr
                | some r =>
                  simp [hr, List.filterMap_cons, Except.map]
    · rw [pr_cons_not_element c rest ns hel] at h
      rw [wr_cons_not_element c rest ns hel]
      exact ih slots h

/-- C3: on a run that completes successfully, the trace of `main` is the
header writes, one rule-block write per non-`None` slot, and a final
report whose count is exactly the number of blocks written. -/
theorem c3_count_matches (doc : Doc) (modelName ns : String)
    (slots : List (Option Rule))
    (h1 : getAttr doc.documentElement "nsPrefix" = some ns)
    (h2 : parse_rules doc ns = .ok slots) :
    mainTrace doc modelName =
      (mainPre modelName ns ++
        (slots.filterMap id).map
          (fun r => Effect.write ("\n" ++ r.str ++ "\n")) ++
        [Effect.print ("Extracted " ++
          toString (slots.filterMap id).length ++ " rules.")],
       .ok 0) := by
  have hw := writeRules_ok doc.documentElement.children ns slots h2
  simp [mainTrace, h1, hw]

/-- C3 witness: on the scenario document one block is written and the
report says 1. -/
theorem c3_witness :
    mainTrace scenarioDoc "M" =
      (mainPre "M" "pn" ++
        (([some fooRule, none] : List (Option Rule)).filterMap id).map
          (fun r => Effect.write ("\n" ++ r.str ++ "\n")) ++
        [Effect.print ("Extracted " ++
          toString (([some fooRule, none] :
            List (Option Rule)).filterMap id).length ++ " rules.")],
       .ok 0) :=
  c3_count_matches scenarioDoc "M" "pn" [some fooRule, none] rfl rfl

/-- C8: when the root element has no `nsPrefix` attribute, `main` raises
the schema error with an empty effect trace: the output file is never
opened, created or written. -/
theorem c8_no_ns_aborts (doc : Doc) (modelName : String)
    (h : getAttr doc.documentElement "nsPrefix" = none) :
    mainTrace doc modelName = ([], .error (.keyError "nsPrefix")) := by
  simp [mainTrace, h]

/-- C8 witness: a root with no attributes aborts before any effect. -/
theorem c8_witness :
    mainTrace ⟨.mk .element "ecore:EPackage" [] []⟩ "M" =
      ([], .error (.keyError "nsPrefix")) :=
  c8_no_ns_aborts ⟨.mk .element "ecore:EPackage" [] []⟩ "M" rfl

/-- C9: with an argument count other than two the tool writes the usage
docstring to stderr, performs no file I/O and exits with status 2; with
exactly two arguments and a normally completing `main` it exits with
status 0. -/
theorem c9_cli_arity (files : String → Doc) (args : List String)
    (f m : String) (effs : List Effect)
    (h1 : args.length ≠ 2)
    (h2 : mainTrace (files f) m = (effs, .ok 0)) :
    cli files args = (some USAGE, [], .ok 2) ∧
    cli files [f, m] = (none, Effect.readInput f :: effs, .ok 0) := by
  constructor
  · match args with
    | [] => rfl
    | [a] => rfl
    | [a, b] => simp at h1
    | a :: b :: c :: rest => rfl
  · simp [cli, h2]

/-- C9 witness: zero arguments print usage and exit 2; two arguments on a
small valid document exit 0. -/
theorem c9_witness :
    cli (fun _ => ⟨.mk .element "r" [("nsPrefix", "p")] []⟩) [] =
      (some USAGE, [], .ok 2) ∧
    cli (fun _ => ⟨.mk .element "r" [("nsPrefix", "p")] []⟩)
        ["in.ecore", "M"] =
      (none,
       [Effect.readInput "in.ecore",
        Effect.openOutput "M.atl",
        Effect.write "module M;\n",
        Effect.write "create OUT: p from IN: p;\n",
        Effect.print "Extracted 0 rules."],
       .ok 0) :=
  c9_cli_arity (fun _ => ⟨.mk .element "r" [("nsPrefix", "p")] []⟩) []
    "in.ecore" "M"
    [Effect.openOutput "M.atl",
     Effect.write "module M;\n",
     Effect.write "create OUT: p from IN: p;\n",
     Effect.print "Extracted 0 rules."]
    (by decide) rfl

/-! Rendering of the full output text. -/

/-- The concatenation of the rule-block writes `"\n%s\n" % str(rule)`
for a list of rules, in order. -/
def renderAll : List Rule → String
  | [] => ""
  | r :: rs => "\n" ++ r.str ++ "\n" ++ renderAll rs

/-- The text written to the output file: the concatenation, in order, of
the strings of all `write` effects of a trace. -/
def writtenText : List Effect → String
  | [] => ""
  | Effect.write s :: rest => s ++ writtenText rest
  | Effect.readInput _ :: rest => writtenText rest
  | Effect.openOutput _ :: rest => writtenText rest
  | Effect.print _ :: rest => writtenText rest

lemma writtenText_append (l1 l2 : List Effect) :
    writtenText (l1 ++ l2) = writtenText l1 ++ writtenText l2 := by
  induction l1 with
  | nil => simp [writtenText]
  | cons e rest ih =>
    cases e <;> simp [writtenText, ih, String.append_assoc]

lemma writtenText_blocks (rs : List Rule) :
    writtenText (rs.map (fun r => Effect.write ("\n" ++ r.str ++ "\n"))) =
      renderAll rs := by
  induction rs with
  | nil => simp [writtenText, renderAll]
  | cons r rest ih =>
    simp only [List.map_cons, writtenText, renderAll]
    rw [ih]

/-- C4: the exact output grammar. The attribute-mapping line indents
three levels of four spaces; a rendered rule puts `from`/`to` at one
level, the `c_in`/`c_out` lines at two levels, joins attribute lines
with `,\n` (no trailing comma) and puts `)` and the closing brace on
their own lines; consecutive blocks in the written output are separated
by exactly one blank line (`\n\n`); and the file text of a successful
run is the two header lines followed by the blocks. -/
theorem c4_output_grammar (r r2 : Rule) (rs : List Rule) (a : String)
    (doc : Doc) (modelName ns : String) (slots : List (Option Rule))
    (h1 : getAttr doc.documentElement "nsPrefix" = some ns)
    (h2 : parse_rules doc ns = .ok slots) :
    attrLine a = "            " ++ a ++ " <- c_in." ++ a ∧
    r.str = "rule " ++ r.name ++ "Rule \x7b\n    from\n        c_in: " ++
      r.ns ++ "!" ++ r.name ++ "\n    to\n        c_out: " ++ r.ns ++ "!" ++
      r.name ++ " (\n" ++
      String.intercalate ",\n" (r.attrs.map attrLine) ++
      "\n        )\n\x7d" ∧
    renderAll (r :: r2 :: rs) =
      "\n" ++ r.str ++ "\n\n" ++ r2.str ++ "\n" ++ renderAll rs ∧
    writtenText (mainTrace doc modelName).fst =
      "module " ++ modelName ++ ";\ncreate OUT: " ++ ns ++ " from IN: " ++
        ns ++ ";\n" ++ renderAll (slots.filterMap id) := by
  refine ⟨rfl, ?_, ?_, ?_⟩
  · simp only [Rule.str, INDENT, List.cons_append, List.nil_append,
      String.intercalate, String.intercalate.go, String.append_assoc]
    rfl
  · simp only [renderAll, String.append_assoc]
    rfl
  · have hw := writeRules_ok doc.documentElement.children ns slots h2
    simp only [mainTrace, h1, hw]
    simp only [writtenText_append, writtenText_blocks]
    simp [writtenText, mainPre, String.append_assoc]
    rfl

/-- C4 witness at the concrete scenario and two concrete rules. -/
theorem c4_witness :
    attrLine "a" = "            " ++ "a" ++ " <- c_in." ++ "a" ∧
    fooRule.str = "rule " ++ fooRule.name ++
      "Rule \x7b\n    from\n        c_in: " ++
      fooRule.ns ++ "!" ++ fooRule.name ++
      "\n    to\n        c_out: " ++ fooRule.ns ++ "!" ++
      fooRule.name ++ " (\n" ++
      String.intercalate ",\n" (fooRule.attrs.map attrLine) ++
      "\n        )\n\x7d" ∧
    renderAll [fooRule, fooRule] =
      "\n" ++ fooRule.str ++ "\n\n" ++ fooRule.str ++ "\n" ++ renderAll [] ∧
    writtenText (mainTrace scenarioDoc "M").fst =
      "module " ++ "M" ++ ";\ncreate OUT: " ++ "pn" ++ " from IN: " ++
        "pn" ++ ";\n" ++
        renderAll (([some fooRule, none] : List (Option Rule)).filterMap id) :=
  c4_output_grammar fooRule fooRule [] "a" scenarioDoc "M" "pn"
    [some fooRule, none] rfl rfl
